import Mathlib

/-!
Verification of the milestone-maintainer munger
(`mungegithub/mungers/milestone-maintainer.go`).

The Go source is shallowly embedded below: pure functions become Lean
functions, the issue tracker collaborator becomes an explicit
`MungeObject` snapshot (labels, event history, comment history, mutation
failure flags), `time.Time`/`time.Duration` become `Int` (nanoseconds,
with an explicit `now` parameter standing for `time.Now()`), and
fallible collaborator calls become `Option` results (`none` = the call
failed / `!ok`).
-/

set_option maxHeartbeats 1000000

/-! ## Label and mode constants (from the Go `const` block) -/

def milestoneNotifierName : String := "MilestoneNotifier"

def milestoneModeDev : String := "dev"

def milestoneModeSlush : String := "slush"

def milestoneModeFreeze : String := "freeze"

def milestoneLabelsIncompleteLabel : String := "milestone/incomplete-labels"

def milestoneNeedsApprovalLabel : String := "milestone/needs-approval"

def milestoneNeedsAttentionLabel : String := "milestone/needs-attention"

def milestoneRemovedLabel : String := "milestone/removed"

def statusApprovedLabel : String := "status/approved-for-milestone"

def statusInProgressLabel : String := "status/in-progress"

def blockerLabel : String := "priority/critical-urgent"

/-- The `sig/` owner-label marker (named `sigLabelPrefix` in the Go source). -/
def sigLabelPre : String := "sig/"

/-- `strings.HasPrefix`, at the character-list level (equivalent to
`String.startsWith`, but reducible by the kernel). -/
def strStartsWith (s pre : String) : Bool := pre.data.isPrefixOf s.data

/-- Milestone lifecycle states (the Go `milestoneState` iota enumeration;
the zero value is `milestoneCurrent`). -/
inductive MilestoneState where
  | milestoneCurrent
  | milestoneNeedsLabeling
  | milestoneNeedsApproval
  | milestoneNeedsAttention
  | milestoneNeedsRemoval
deriving DecidableEq, Repr, Inhabited

open MilestoneState

/-- Label and notification configuration for a milestone state
(Go struct `milestoneStateConfig`). -/
structure MilestoneStateConfig where
  label : String := ""
  title : String := ""
  warnOnInterval : Bool := false
  notifySIGs : Bool := false
deriving DecidableEq, Repr

/-- The Go `milestoneStateConfigs` map, as a total function on the enum. -/
def milestoneStateConfigs : MilestoneState → MilestoneStateConfig
  | milestoneCurrent => { title := "Milestone Issue **Current**" }
  | milestoneNeedsLabeling =>
      { title := "Milestone Labels **Incomplete**"
        label := milestoneLabelsIncompleteLabel
        warnOnInterval := true }
  | milestoneNeedsApproval =>
      { title := "Milestone Issue **Needs Approval**"
        label := milestoneNeedsApprovalLabel
        warnOnInterval := true
        notifySIGs := true }
  | milestoneNeedsAttention =>
      { title := "Milestone Issue **Needs Attention**"
        label := milestoneNeedsAttentionLabel
        warnOnInterval := true
        notifySIGs := true }
  | milestoneNeedsRemoval =>
      { title := "Milestone **Removed**"
        label := milestoneRemovedLabel
        notifySIGs := true }

/-- The state labels applied by the munger (Go `milestoneStateLabels`). -/
def milestoneStateLabels : List String :=
  [milestoneLabelsIncompleteLabel,
   milestoneNeedsApprovalLabel,
   milestoneNeedsAttentionLabel,
   milestoneRemovedLabel]

/-- The Go `kindMap` (kind label → description), as an association list. -/
def kindMap : List (String × String) :=
  [("kind/bug", "Fixes a bug discovered during the current release."),
   ("kind/feature", "New functionality."),
   ("kind/cleanup", "Adding tests, refactoring, fixing old bugs.")]

/-- The Go `priorityMap` (priority label → description). -/
def priorityMap : List (String × String) :=
  [(blockerLabel, "Never automatically move out of a release milestone; continually escalate to contributor and SIG through all available channels."),
   ("priority/important-soon", "Escalate to the issue owners and SIG owner; move out of milestone after several unsuccessful escalation attempts."),
   ("priority/important-longterm", "Escalate to the issue owners; move out of the milestone after 1 attempt.")]

/-- The fixed help-links block appended to every message (Go `milestoneDetail`). -/
def milestoneDetail : String :=
  "<details>\n<summary>Help</summary>\n<ul>\n <li><a href=\"https://github.com/kubernetes/community/blob/master/contributors/devel/release/issues.md\">Additional instructions</a></li>\n <li><a href=\"https://github.com/kubernetes/test-infra/blob/master/commands.md\">Commands for setting labels</a></li>\n</ul>\n</details>\n"

/-! ## External collaborator data (issue snapshot) -/

/-- Modelled from the spec: a `Notification` is {source-name, title, body};
two notifications are equal iff all three components are byte-identical
(the `comment` matcher package is an external collaborator, not in the
source under verification). -/
structure Notification where
  name : String
  title : String
  body : String
deriving DecidableEq, Repr

/-- Modelled from the spec: a tracker comment as seen through the comment
matcher collaborator.  `notif` is the result of parsing the comment text
back into a notification (`none` when the comment is not a munger
notification); `createdAt` is the comment's creation timestamp. -/
structure Comment where
  author : String
  notif : Option Notification
  createdAt : Option Int
deriving DecidableEq, Repr

/-- Modelled from the spec: `c.ParseNotification`, nil-safe on a missing
comment. -/
def parseNotification (comment : Option Comment) : Option Notification :=
  comment.bind (fun cm => cm.notif)

/-- Modelled from the spec: a label-change event from the tracker's event
history (the `event` matcher package is an external collaborator).
`addLabel` is true for label-application events. -/
structure IssueEvent where
  addLabel : Bool
  label : String
  actor : String
  createdAt : Option Int
deriving DecidableEq, Repr

/-- A snapshot of a munge object together with the behaviour of the
fallible collaborator calls made on it.  `Option` fields are `none` when
the corresponding collaborator read fails; the `...Fails` fields say
which mutation calls fail. -/
structure MungeObject where
  isPR : Bool := false
  issueState : Option String := none
  releaseMilestone : Option String := none
  labels : List String := []
  events : Option (List IssueEvent) := none
  lastModificationTime : Option Int := none
  comments : Option (List Comment) := none
  issueUsersMention : String := ""
  addLabelFails : List String := []
  removeLabelFails : List String := []
  deleteCommentFails : Bool := false
  postCommentFails : Bool := false
deriving Repr

/-- `obj.HasLabel`: membership in the snapshot's current label set. -/
def MungeObject.hasLabel (obj : MungeObject) (name : String) : Bool :=
  obj.labels.contains name

/-- Modelled from the spec: `findLastModificationTime` lives outside the
verified source file; it is the collaborator lookup of the item's last
modification time, failing with `none` when history is unavailable. -/
def findLastModificationTime (obj : MungeObject) : Option Int :=
  obj.lastModificationTime

/-- Munger configuration (the fields of the Go `MilestoneMaintainer`
struct that the per-issue logic reads). -/
structure MilestoneMaintainer where
  botName : String := ""
  activeMilestone : String := ""
  mode : String := ""
  warningInterval : Int := 0
  labelGracePeriod : Int := 0
  approvalGracePeriod : Int := 0
  slushUpdateInterval : Int := 0
  freezeUpdateInterval : Int := 0
  freezeDate : String := ""
deriving Repr

/-- `(m *MilestoneMaintainer) updateInterval()`. -/
def MilestoneMaintainer.updateInterval (m : MilestoneMaintainer) : Int :=
  if m.mode = milestoneModeSlush then m.slushUpdateInterval
  else if m.mode = milestoneModeFreeze then m.freezeUpdateInterval
  else 0

/-! ## Label classification (`checkLabels` and helpers) -/

/-- `quoteLabel`: format a label as inline markdown code. -/
def quoteLabel (label : String) : String :=
  if label.length > 0 then "`" ++ label ++ "`" else label

/-- Loop body of `uniqueLabelName`: scan the issue's labels, remembering
the first one found in the map and failing (second component `true`,
the Go non-nil error) on a second match. -/
def uniqueLabelNameAux (labelMap : List (String × String)) :
    List String → String → String × Bool
  | [], labelName => (labelName, false)
  | l :: rest, labelName =>
    if (labelMap.lookup l).isSome then
      if labelName = "" then uniqueLabelNameAux labelMap rest l
      else ("", true)
    else uniqueLabelNameAux labelMap rest labelName

/-- `uniqueLabelName`: which label of the map - if any - is present.
Second component is the Go error (`true` when more than one matched). -/
def uniqueLabelName (labels : List String) (labelMap : List (String × String)) :
    String × Bool :=
  uniqueLabelNameAux labelMap labels ""

/-- `sigLabelNames`: the `sig/`-prefixed labels set on the issue. -/
def sigLabelNames (labels : List String) : List String :=
  labels.filter (fun l => strStartsWith l sigLabelPre)

/-- Ascending insertion sort on strings (the effect of `sort.Strings`). -/
def sortStrings : List String → List String
  | [] => []
  | x :: xs => insertSorted x (sortStrings xs)
where
  insertSorted (x : String) : List String → List String
    | [] => [x]
    | y :: ys => if x < y then x :: y :: ys else y :: insertSorted x ys

/-- `formatLabelString`: the map's keys quoted, sorted and joined as
"`a`, `b` or `c`". -/
def formatLabelString (labelMap : List (String × String)) : String :=
  let labelList := sortStrings (labelMap.map (fun p => quoteLabel p.1))
  match labelList with
  | [] => ""
  | [single] => single
  | l => String.intercalate ", " l.dropLast ++ " or " ++ (l.getLast?.getD "")

/-- Result of `checkLabels` (the Go function's four named results). -/
structure CheckLabelsResult where
  kindLabel : String
  priorityLabel : String
  sigLabels : List String
  labelErrors : List String
deriving DecidableEq, Repr

/-- `checkLabels`: validate that the labels carry exactly one kind label,
exactly one priority label and at least one `sig/` label. -/
def checkLabels (labels : List String) : CheckLabelsResult :=
  let kr := uniqueLabelName labels kindMap
  let labelErrors : List String :=
    if kr.2 = true ∨ kr.1 = "" then
      ["_**kind**_: Must specify exactly one of " ++ formatLabelString kindMap ++ "."]
    else []
  let pr := uniqueLabelName labels priorityMap
  let labelErrors :=
    if pr.2 = true ∨ pr.1 = "" then
      labelErrors ++
        ["_**priority**_: Must specify exactly one of " ++ formatLabelString priorityMap ++ "."]
    else labelErrors
  let sigLabels := sigLabelNames labels
  let labelErrors :=
    if sigLabels = [] then
      labelErrors ++
        ["_**sig owner**_: Must specify at least one label prefixed with `" ++ sigLabelPre ++ "`."]
    else labelErrors
  { kindLabel := kr.1, priorityLabel := pr.1, sigLabels := sigLabels
    labelErrors := labelErrors }

/-! ## Grace period calculation -/

/-- `labelLastCreatedAt`: when the given label was last applied to the
object by the bot.  `none` if event retrieval fails or no matching
add-label event (with a timestamp) exists. -/
def labelLastCreatedAt (obj : MungeObject) (botName labelName : String) : Option Int :=
  match obj.events with
  | none => none
  | some events =>
    let labelEvents := events.filter
      (fun e => e.addLabel && e.label == labelName && e.actor == botName)
    match labelEvents.getLast? with
    | some lastAdded => lastAdded.createdAt
    | none => none

/-- `gracePeriodStart`: when the grace period starts, as indicated by when
the deficiency label was last applied; the caller-supplied default when
the label is not currently set; `none` when the event lookup fails. -/
def gracePeriodStart (obj : MungeObject) (botName labelName : String)
    (defaultStart : Int) : Option Int :=
  if obj.hasLabel labelName = false then some defaultStart
  else labelLastCreatedAt obj botName labelName

/-- `gracePeriodRemaining`.  The Go function returns
`(*time.Duration, bool)`; here `none` is `(_, false)` (indeterminate),
`some none` is `(nil, true)` (exempt: no deadline) and `some (some r)`
is `(&r, true)`, with `r = gracePeriod - (now - start)`. -/
def gracePeriodRemaining (obj : MungeObject) (botName labelName : String)
    (gracePeriod defaultStart : Int) (isBlocker : Bool) (now : Int) :
    Option (Option Int) :=
  if isBlocker then some none
  else
    match gracePeriodStart obj botName labelName defaultStart with
    | none => none
    | some start => some (some (start + gracePeriod - now))

/-! ## Issue change configuration (the state resolver) -/

/-- Modelled from the spec: durations are rendered as whole-day counts
when at least a day, else as a literal duration string (helper
`durationToMaxDays` lives outside the verified source file; only its
determinism matters here).  A day is 86400e9 nanoseconds. -/
def durationToMaxDays (d : Int) : String :=
  let day : Int := 86400000000000
  if d ≥ day then toString ((d + day - 1) / day) ++ " days"
  else toString d ++ "ns"

/-- Modelled from the spec: deterministic rendering of the last-update
date (`lastUpdated.Format("Jan 2")`); the spec fixes no grammar for it,
so an injective-enough placeholder rendering is used. -/
def timeFormatJan2 (t : Int) : String :=
  "day " ++ toString t

/-- The template arguments used by `milestoneMessageTemplate`, embedded
as a record with one field per key of the Go
`map[string]interface{}`.  String fields default to the Go template's
rendering of a missing key. -/
structure TemplateArgs where
  approvalGracePeriod : String := "<no value>"
  approvedLabel : String := "<no value>"
  blockerLabel : String := "<no value>"
  freezeDate : String := "<no value>"
  inProgressLabel : String := "<no value>"
  labelGracePeriod : String := "<no value>"
  milestone : String := "<no value>"
  mode : String := "<no value>"
  updateInterval : String := "<no value>"
  unapprovedRemovalWarning : String := "<no value>"
  incompleteLabelsRemovalWarning : String := "<no value>"
  lastUpdated : String := "<no value>"
  labelErrors : List String := []
  kindLabel : String := "<no value>"
  kindDescription : String := "<no value>"
  priorityLabel : String := "<no value>"
  priorityDescription : String := "<no value>"
  sigLabels : List String := []
deriving DecidableEq, Repr

/-- The Go `issueChangeConfig` struct. -/
structure IssueChangeConfig where
  state : MilestoneState := milestoneCurrent
  enabledSections : List String := []
  sigLabels : List String := []
  templateArguments : TemplateArgs := {}
deriving Repr

/-- `enableSection`: insert into the `sets.String` of enabled sections. -/
def IssueChangeConfig.enableSection (icc : IssueChangeConfig)
    (sectionName : String) : IssueChangeConfig :=
  if icc.enabledSections.contains sectionName then icc
  else { icc with enabledSections := icc.enabledSections ++ [sectionName] }

/-- `summarizeLabels`: record the classified labels for the summary panel
and set the state to `milestoneCurrent`. -/
def IssueChangeConfig.summarizeLabels (icc : IssueChangeConfig)
    (kindLabel priorityLabel : String) (sigLabels : List String) :
    IssueChangeConfig :=
  let icc := icc.enableSection "summarizeLabels"
  { icc with
    state := milestoneCurrent
    sigLabels := sigLabels
    templateArguments := { icc.templateArguments with
      kindLabel := quoteLabel kindLabel
      kindDescription := (kindMap.lookup kindLabel).getD ""
      priorityLabel := quoteLabel priorityLabel
      priorityDescription := (priorityMap.lookup priorityLabel).getD ""
      sigLabels := sigLabels.map quoteLabel } }

/-- `warnUnapproved`: needs-approval warning, with a removal deadline
only when `removeAfter` is non-nil. -/
def IssueChangeConfig.warnUnapproved (icc : IssueChangeConfig)
    (removeAfter : Option Int) (milestone : String) : IssueChangeConfig :=
  let icc := icc.enableSection "warnUnapproved"
  let warning := match removeAfter with
    | some ra =>
        " If the label is not applied within " ++ durationToMaxDays ra ++
        ", the issue will be moved out of the " ++ milestone ++ " milestone."
    | none => ""
  { icc with
    state := milestoneNeedsApproval
    templateArguments := { icc.templateArguments with unapprovedRemovalWarning := warning } }

/-- `removeUnapproved`. -/
def IssueChangeConfig.removeUnapproved (icc : IssueChangeConfig) : IssueChangeConfig :=
  let icc := icc.enableSection "removeUnapproved"
  { icc with state := milestoneNeedsRemoval }

/-- `removeNonBlocker`. -/
def IssueChangeConfig.removeNonBlocker (icc : IssueChangeConfig) : IssueChangeConfig :=
  let icc := icc.enableSection "removeNonBlocker"
  { icc with state := milestoneNeedsRemoval }

/-- `warnMissingInProgress`. -/
def IssueChangeConfig.warnMissingInProgress (icc : IssueChangeConfig) : IssueChangeConfig :=
  let icc := icc.enableSection "warnMissingInProgress"
  { icc with state := milestoneNeedsAttention }

/-- `warnUpdateRequired`. -/
def IssueChangeConfig.warnUpdateRequired (icc : IssueChangeConfig)
    (lastUpdated : Int) : IssueChangeConfig :=
  let icc := icc.enableSection "warnUpdateRequired"
  { icc with
    state := milestoneNeedsAttention
    templateArguments := { icc.templateArguments with lastUpdated := timeFormatJan2 lastUpdated } }

/-- `warnIncompleteLabels`. -/
def IssueChangeConfig.warnIncompleteLabels (icc : IssueChangeConfig)
    (removeAfter : Option Int) (labelErrors : List String) (milestone : String) :
    IssueChangeConfig :=
  let icc := icc.enableSection "warnIncompleteLabels"
  let warning := match removeAfter with
    | some ra =>
        " If the required changes are not made within " ++ durationToMaxDays ra ++
        ", the issue will be moved out of the " ++ milestone ++ " milestone."
    | none => ""
  { icc with
    state := milestoneNeedsLabeling
    templateArguments := { icc.templateArguments with
      incompleteLabelsRemovalWarning := warning
      labelErrors := labelErrors } }

/-- `removeIncompleteLabels`. -/
def IssueChangeConfig.removeIncompleteLabels (icc : IssueChangeConfig)
    (labelErrors : List String) : IssueChangeConfig :=
  let icc := icc.enableSection "removeIncompleteLabels"
  { icc with
    state := milestoneNeedsRemoval
    templateArguments := { icc.templateArguments with labelErrors := labelErrors } }

/-- `sigMentions`: owner-group mention list built from the sig labels
(Go `sigMentionTemplate` is "@kubernetes/sig-%s-bugs"). -/
def IssueChangeConfig.sigMentions (icc : IssueChangeConfig) : String :=
  String.intercalate " " (icc.sigLabels.map (fun label =>
    let sig := if strStartsWith label sigLabelPre then
        String.mk (label.data.drop sigLabelPre.data.length)
      else label
    "@kubernetes/sig-" ++ sig ++ "-bugs"))

/-- `issueChangeConfig`: the state-resolution decision tree.  `none`
means no action should be taken this cycle. -/
def issueChangeConfig (m : MilestoneMaintainer) (obj : MungeObject) (now : Int) :
    Option IssueChangeConfig :=
  let updateInterval := m.updateInterval
  let icc : IssueChangeConfig :=
    { state := milestoneCurrent
      enabledSections := []
      sigLabels := []
      templateArguments :=
        { approvalGracePeriod := durationToMaxDays m.approvalGracePeriod
          approvedLabel := quoteLabel statusApprovedLabel
          blockerLabel := quoteLabel blockerLabel
          freezeDate := m.freezeDate
          inProgressLabel := quoteLabel statusInProgressLabel
          labelGracePeriod := durationToMaxDays m.labelGracePeriod
          milestone := m.activeMilestone ++ " milestone"
          mode := m.mode
          updateInterval := durationToMaxDays updateInterval } }
  let isBlocker := obj.hasLabel blockerLabel
  let r := checkLabels obj.labels
  if r.labelErrors = [] then
    let icc := icc.summarizeLabels r.kindLabel r.priorityLabel r.sigLabels
    if obj.hasLabel statusApprovedLabel = false then
      if isBlocker = true then some (icc.warnUnapproved none m.activeMilestone)
      else
        match gracePeriodRemaining obj m.botName milestoneNeedsApprovalLabel
            m.approvalGracePeriod now false now with
        | none => none
        | some none => some (icc.warnUnapproved none m.activeMilestone)
        | some (some ra) =>
          if ra ≥ 0 then some (icc.warnUnapproved (some ra) m.activeMilestone)
          else some icc.removeUnapproved
    else if m.mode = milestoneModeDev then
      some icc
    else if m.mode = milestoneModeFreeze ∧ isBlocker = false then
      some icc.removeNonBlocker
    else
      let icc := if obj.hasLabel statusInProgressLabel = false
        then icc.warnMissingInProgress else icc
      if isBlocker = false then some (icc.enableSection "warnNonBlockerRemoval")
      else if updateInterval > 0 then
        match findLastModificationTime obj with
        | none => none
        | some lastUpdateTime =>
          let durationSinceUpdate := now - lastUpdateTime
          let icc := if durationSinceUpdate > updateInterval
            then icc.warnUpdateRequired lastUpdateTime else icc
          some (icc.enableSection "warnUpdateInterval")
      else some icc
  else
    match gracePeriodRemaining obj m.botName milestoneLabelsIncompleteLabel
        m.labelGracePeriod now isBlocker now with
    | none => none
    | some none => some (icc.warnIncompleteLabels none r.labelErrors m.activeMilestone)
    | some (some ra) =>
      if ra ≥ 0 then some (icc.warnIncompleteLabels (some ra) r.labelErrors m.activeMilestone)
      else some (icc.removeIncompleteLabels r.labelErrors)

/-! ## Notification rendering (`messageBody` and the message template) -/

/-- The `{{range ...}}` block over `.labelErrors` in the template: each
error on its own line. -/
def renderLabelErrors : List String → String
  | [] => ""
  | e :: rest => e ++ "\n" ++ renderLabelErrors rest

/-- The issue-label-summary panel of `milestoneMessageTemplate`
(rendered open when `onlySummary`, i.e. in the `Current` state). -/
def summaryPanel (onlySummary : Bool) (sigLabels : List String)
    (priorityLabel priorityDescription kindLabel kindDescription : String) : String :=
  "<details" ++ (if onlySummary then " open" else "") ++
  ">\n<summary>Issue Labels</summary>\n\n- " ++
  String.intercalate " " sigLabels ++
  ": Issue will be escalated to these SIGs if needed.\n- " ++
  priorityLabel ++ ": " ++ priorityDescription ++ "\n- " ++
  kindLabel ++ ": " ++ kindDescription ++ "\n</details>"

/-- Whether a template section is rendered: it must be enabled, and for a
removal state only `remove*` sections survive (the suppression loop at
the top of the Go `messageBody`). -/
def sectionActive (icc : IssueChangeConfig) (name : String) : Bool :=
  icc.enabledSections.contains name &&
    (icc.state != milestoneNeedsRemoval || strStartsWith name "remove")

/-- Modelled from the spec: the template engine
(`approvers.GenerateTemplateOrFail`) is an external collaborator whose
rendering is pure and deterministic; applying it to the fixed
`milestoneMessageTemplate` is transliterated here section by section
(in template order, with Go template whitespace trimming applied). -/
def renderMessage (icc : IssueChangeConfig) : String :=
  let a := icc.templateArguments
  (if sectionActive icc "warnUnapproved" then
    "\n**Action required**: This issue must have the " ++ a.approvedLabel ++
    " label applied by a SIG maintainer." ++ a.unapprovedRemovalWarning ++ "\n"
   else "") ++
  (if sectionActive icc "removeUnapproved" then
    "\n**Important**: This issue was missing the " ++ a.approvedLabel ++
    " label for more than " ++ a.approvalGracePeriod ++ ".\n"
   else "") ++
  (if sectionActive icc "warnMissingInProgress" then
    "\n**Action required**: During code " ++ a.mode ++
    ", issues in the milestone should be in progress.\nIf this issue is not being actively worked on, please remove it from the milestone.\nIf it is being worked on, please add the " ++
    a.inProgressLabel ++ " label so it can be tracked with other in-flight issues.\n"
   else "") ++
  (if sectionActive icc "warnUpdateRequired" then
    "\n**Action Required**: This issue has not been updated since " ++ a.lastUpdated ++
    ". Please provide an update.\n"
   else "") ++
  (if sectionActive icc "warnUpdateInterval" then
    "\n**Note**: This issue is marked as " ++ a.blockerLabel ++
    ", and must be updated every " ++ a.updateInterval ++ " during code " ++ a.mode ++
    ".\n\nExample update:\n\n```\nACK.  In progress\nETA: DD/MM/YYYY\nRisks: Complicated fix required\n```\n"
   else "") ++
  (if sectionActive icc "warnNonBlockerRemoval" then
    "\n**Note**: If this issue is not resolved or labeled as " ++ a.blockerLabel ++
    " by " ++ a.freezeDate ++ " it will be moved out of the " ++ a.milestone ++ ".\n"
   else "") ++
  (if sectionActive icc "removeNonBlocker" then
    "\n**Important**: Code freeze is in effect and only issues with " ++ a.blockerLabel ++
    " may remain in the " ++ a.milestone ++ ".\n"
   else "") ++
  (if sectionActive icc "warnIncompleteLabels" then
    "\n**Action required**: This issue requires label changes." ++
    a.incompleteLabelsRemovalWarning ++ "\n\n" ++
    renderLabelErrors a.labelErrors
   else "") ++
  (if sectionActive icc "removeIncompleteLabels" then
    "\n**Important**: This issue was missing labels required for the " ++ a.milestone ++
    " for more than " ++ a.labelGracePeriod ++ ":\n\n" ++
    renderLabelErrors a.labelErrors ++ "\n"
   else "") ++
  (if sectionActive icc "summarizeLabels" then
    summaryPanel (icc.state == milestoneCurrent) a.sigLabels
      a.priorityLabel a.priorityDescription a.kindLabel a.kindDescription
   else "")

/-- `messageBody`: render the enabled sections (the template engine's
failure mode never fires for the fixed, well-formed template). -/
def messageBody (icc : IssueChangeConfig) : Option String :=
  some (renderMessage icc)

/-! ## Issue change and the munge cycle -/

/-- The Go `issueChange` struct. -/
structure IssueChange where
  notification : Notification
  label : String
  commentInterval : Option Int
  removeFromMilestone : Bool
deriving DecidableEq, Repr

/-- `issueChange`: compute the changes required for the issue; `none`
means no action should be taken. -/
def issueChange (m : MilestoneMaintainer) (obj : MungeObject) (now : Int) :
    Option IssueChange :=
  match issueChangeConfig m obj now with
  | none => none
  | some icc =>
    match messageBody icc with
    | none => none
    | some body =>
      let stateConfig := milestoneStateConfigs icc.state
      let mentions := obj.issueUsersMention
      let mentions :=
        if stateConfig.notifySIGs then
          let sigMentions := icc.sigMentions
          if sigMentions.length > 0 then mentions ++ " " ++ sigMentions else mentions
        else mentions
      let message := mentions ++ "\n\n" ++ body ++ "\n" ++ milestoneDetail
      let commentInterval :=
        if stateConfig.warnOnInterval then some m.warningInterval else none
      some
        { notification :=
            { name := milestoneNotifierName, title := stateConfig.title, body := message }
          label := stateConfig.label
          removeFromMilestone := icc.state == milestoneNeedsRemoval
          commentInterval := commentInterval }

/-- `ignoreObject`: only open issues in the active milestone are munged. -/
def ignoreObject (obj : MungeObject) (activeMilestone : String) : Bool :=
  if obj.isPR then true
  else if (match obj.issueState with
           | some s => s == "closed"
           | none => false) then true
  else match obj.releaseMilestone with
    | none => true
    | some milestone =>
      if milestone.length = 0 then true else milestone != activeMilestone

/-- Modelled from the spec: the `c.MungerNotificationName` matcher keeps
the comments that parse as munger notifications named
`MilestoneNotifier` and were authored by the bot. -/
def isNotificationComment (botName : String) (cm : Comment) : Bool :=
  cm.author == botName &&
    (match cm.notif with
     | some n => n.name == milestoneNotifierName
     | none => false)

/-- `latestNotificationComment`: the most recent munger notification
comment.  Outer `none` when listing comments fails. -/
def latestNotificationComment (obj : MungeObject) (botName : String) :
    Option (Option Comment) :=
  match obj.comments with
  | none => none
  | some issueComments =>
    some ((issueComments.filter (isNotificationComment botName)).getLast?)

/-- `notificationIsCurrent`: the given notification matches the most
recent notification comment and the comment interval - if provided -
has not been exceeded. -/
def notificationIsCurrent (notification : Notification) (comment : Option Comment)
    (commentInterval : Option Int) (now : Int) : Bool :=
  let oldNotification := parseNotification comment
  let notificationsEqual :=
    match oldNotification with
    | some o => o == notification
    | none => false
  notificationsEqual &&
    (match commentInterval with
     | none => true
     | some interval =>
       match comment with
       | some cm =>
         match cm.createdAt with
         | some createdAt => decide (now - createdAt < interval)
         | none => false
       | none => false)

/-- The externally visible mutations a munge cycle can emit, in order. -/
inductive MungeAction where
  | addLabel (name : String)
  | removeLabel (name : String)
  | deleteComment
  | postComment (n : Notification)
  | clearMilestone
deriving DecidableEq, Repr

/-- Removal loop of `updateMilestoneStateLabel`: remove every other
currently-set milestone state label, stopping at the first failure. -/
def removeOtherStateLabels (obj : MungeObject) (labelName : String) :
    List String → List MungeAction × Bool
  | [] => ([], true)
  | stateLabel :: rest =>
    if stateLabel ≠ labelName ∧ obj.hasLabel stateLabel = true then
      if stateLabel ∈ obj.removeLabelFails then ([MungeAction.removeLabel stateLabel], false)
      else
        match removeOtherStateLabels obj labelName rest with
        | (acts, ok) => (MungeAction.removeLabel stateLabel :: acts, ok)
    else removeOtherStateLabels obj labelName rest

/-- `updateMilestoneStateLabel`: ensure the given state label is the only
state label set.  Returns the attempted mutations and whether every
mutation succeeded (Go returns only the Bool). -/
def updateMilestoneStateLabel (obj : MungeObject) (labelName : String) :
    List MungeAction × Bool :=
  if labelName.length > 0 ∧ obj.hasLabel labelName = false then
    if labelName ∈ obj.addLabelFails then ([MungeAction.addLabel labelName], false)
    else
      match removeOtherStateLabels obj labelName milestoneStateLabels with
      | (acts, ok) => (MungeAction.addLabel labelName :: acts, ok)
  else removeOtherStateLabels obj labelName milestoneStateLabels

/-- `Munge`: one full cycle for one issue, as the ordered list of
attempted mutations (each early `return` in the Go code cuts the list
short). -/
def Munge (m : MilestoneMaintainer) (obj : MungeObject) (now : Int) :
    List MungeAction :=
  if ignoreObject obj m.activeMilestone then []
  else
    match issueChange m obj now with
    | none => []
    | some change =>
      match updateMilestoneStateLabel obj change.label with
      | (labelActs, false) => labelActs
      | (labelActs, true) =>
        match latestNotificationComment obj m.botName with
        | none => labelActs
        | some comment =>
          match
            (if notificationIsCurrent change.notification comment change.commentInterval now
             then (([], true) : List MungeAction × Bool)
             else
               match comment with
               | some _ =>
                 if obj.deleteCommentFails then ([MungeAction.deleteComment], false)
                 else if obj.postCommentFails then
                   ([MungeAction.deleteComment, MungeAction.postComment change.notification],
                     false)
                 else
                   ([MungeAction.deleteComment, MungeAction.postComment change.notification],
                     true)
               | none =>
                 if obj.postCommentFails then
                   ([MungeAction.postComment change.notification], false)
                 else ([MungeAction.postComment change.notification], true)) with
          | (commentActs, false) => labelActs ++ commentActs
          | (commentActs, true) =>
            labelActs ++ commentActs ++
              (if change.removeFromMilestone then [MungeAction.clearMilestone] else [])

/-! ## Summary-panel observations and concrete counterexample data -/

/-- Whether `t` is a suffix of `s`, at the character-list level. -/
def strEndsWith (s t : String) : Bool := t.data.isSuffixOf s.data

/-- The issue-label-summary panel as it would render for a resolved
config (open exactly when the state is `Current`). -/
def summaryPanelOf (icc : IssueChangeConfig) : String :=
  summaryPanel (icc.state == milestoneCurrent) icc.templateArguments.sigLabels
    icc.templateArguments.priorityLabel icc.templateArguments.priorityDescription
    icc.templateArguments.kindLabel icc.templateArguments.kindDescription

/-- The rendered body carries the issue-label-summary panel iff it ends
with the panel text. -/
def hasSummaryPanel (icc : IssueChangeConfig) (body : String) : Bool :=
  strEndsWith body (summaryPanelOf icc)

/-- A string that is empty or ends in a newline (the shape of every
rendered non-panel section). -/
def endsNLOrEmpty (s : String) : Prop := s = "" ∨ s.data.getLast? = some '\n'

/-- Freeze-mode maintainer used for the summary-panel counterexample. -/
def mC9 : MilestoneMaintainer := { mode := "freeze", activeMilestone := "v1.9" }

/-- A valid, approved, non-blocker item: resolved to removal in freeze. -/
def objC9 : MungeObject :=
  { labels := ["kind/bug", "priority/important-soon", "sig/api",
      "status/approved-for-milestone"] }

/-- The resolved configuration for the counterexample item. -/
def iccC9 : IssueChangeConfig := (issueChangeConfig mC9 objC9 0).getD {}

/-- Dev-mode maintainer used for the summary-panel witness. -/
def mC9w : MilestoneMaintainer := { mode := "dev" }

/-- A valid, approved item in dev mode: resolved to `Current`. -/
def objC9w : MungeObject :=
  { labels := ["kind/bug", "priority/important-soon", "sig/api",
      "status/approved-for-milestone"] }

/-- The resolved configuration for the witness item. -/
def iccC9w : IssueChangeConfig := (issueChangeConfig mC9w objC9w 0).getD {}

/-! ## Lemmas about label classification -/

lemma lookup_isSome_mem_keys {m : List (String × String)} {l : String}
    (h : (m.lookup l).isSome = true) : l ∈ m.map Prod.fst := by
  induction m with
  | nil => simp [List.lookup] at h
  | cons p rest ih =>
    obtain ⟨k, v⟩ := p
    simp only [List.lookup] at h
    cases hbeq : (l == k) with
    | true => simp [eq_of_beq hbeq]
    | false =>
      rw [hbeq] at h
      exact List.mem_cons_of_mem _ (ih h)

lemma uniqueLabelNameAux_acc {m : List (String × String)} (ls : List String)
    (acc : String) (hacc : acc ≠ "") :
    uniqueLabelNameAux m ls acc =
      if ls.any (fun l => (m.lookup l).isSome) then ("", true) else (acc, false) := by
  induction ls with
  | nil => simp [uniqueLabelNameAux]
  | cons l rest ih =>
    rw [uniqueLabelNameAux]
    cases hl : (m.lookup l).isSome with
    | true => simp [hl, hacc]
    | false =>
      rw [ih]
      simp only [List.any_cons, hl, Bool.false_or]
      rw [if_neg (by simp : ¬(false = true))]

lemma uniqueLabelName_filter_cases (labels : List String) (m : List (String × String))
    (hm : ∀ k ∈ m.map Prod.fst, k ≠ "") :
    (labels.filter (fun l => (m.lookup l).isSome) = [] ∧
      uniqueLabelName labels m = ("", false)) ∨
    (∃ k, labels.filter (fun l => (m.lookup l).isSome) = [k] ∧
      uniqueLabelName labels m = (k, false) ∧ k ≠ "") ∨
    (∃ a b t, labels.filter (fun l => (m.lookup l).isSome) = a :: b :: t ∧
      uniqueLabelName labels m = ("", true)) := by
  unfold uniqueLabelName
  induction labels with
  | nil => left; exact ⟨rfl, rfl⟩
  | cons l rest ih =>
    cases hl : (m.lookup l).isSome with
    | false =>
      rw [uniqueLabelNameAux]
      simp only [hl]
      rw [List.filter_cons_of_neg (by simp [hl])]
      simpa using ih
    | true =>
      have hkne : l ≠ "" := hm l (lookup_isSome_mem_keys hl)
      have hstep : uniqueLabelNameAux m (l :: rest) "" = uniqueLabelNameAux m rest l := by
        rw [uniqueLabelNameAux]
        simp [hl]
      rw [hstep, uniqueLabelNameAux_acc rest l hkne,
        List.filter_cons_of_pos (by simp [hl])]
      cases hany : rest.any (fun x => (m.lookup x).isSome) with
      | false =>
        have hnil : rest.filter (fun x => (m.lookup x).isSome) = [] := by
          rw [List.filter_eq_nil_iff]
          intro x hx hpx
          have : rest.any (fun x => (m.lookup x).isSome) = true :=
            List.any_eq_true.mpr ⟨x, hx, hpx⟩
          rw [hany] at this
          exact Bool.false_ne_true this
        right; left
        exact ⟨l, by rw [hnil], by simp [hany], hkne⟩
      | true =>
        obtain ⟨x, hx, hpx⟩ := List.any_eq_true.mp hany
        have hxf : x ∈ rest.filter (fun x => (m.lookup x).isSome) :=
          List.mem_filter.mpr ⟨hx, hpx⟩
        rcases hfr : rest.filter (fun x => (m.lookup x).isSome) with _ | ⟨b, t⟩
        · simp [hfr] at hxf
        · right; right
          exact ⟨l, b, t, rfl, by simp [hany]⟩

lemma checkLabels_kind_cond (labels : List String) :
    ((uniqueLabelName labels kindMap).2 = true ∨ (uniqueLabelName labels kindMap).1 = "")
      ↔ labels.countP (fun l => (kindMap.lookup l).isSome) ≠ 1 := by
  have hm : ∀ k ∈ kindMap.map Prod.fst, k ≠ "" := by decide
  rw [List.countP_eq_length_filter]
  rcases uniqueLabelName_filter_cases labels kindMap hm with
    ⟨hf, hu⟩ | ⟨k, hf, hu, hk⟩ | ⟨a, b, t, hf, hu⟩ <;> rw [hf, hu] <;> simp <;>
    first
    | exact hk
    | omega

lemma checkLabels_prio_cond (labels : List String) :
    ((uniqueLabelName labels priorityMap).2 = true ∨ (uniqueLabelName labels priorityMap).1 = "")
      ↔ labels.countP (fun l => (priorityMap.lookup l).isSome) ≠ 1 := by
  have hm : ∀ k ∈ priorityMap.map Prod.fst, k ≠ "" := by decide
  rw [List.countP_eq_length_filter]
  rcases uniqueLabelName_filter_cases labels priorityMap hm with
    ⟨hf, hu⟩ | ⟨k, hf, hu, hk⟩ | ⟨a, b, t, hf, hu⟩ <;> rw [hf, hu] <;> simp <;>
    first
    | exact hk
    | omega

/-- C2: for a label set with exactly one kind label, exactly one priority
label and at least one `sig/` label, `checkLabels` returns exactly those
labels and no errors; each deficient category appends exactly one error
string, the duplicate and missing cases of a category producing the
identical "Must specify exactly one of" message, and a missing owner
label appends exactly one "at least one" message. -/
theorem milestone_c2 (labels : List String) :
    ((checkLabels labels).labelErrors =
      (if labels.countP (fun l => (kindMap.lookup l).isSome) = 1 then []
       else ["_**kind**_: Must specify exactly one of " ++ formatLabelString kindMap ++ "."]) ++
      (if labels.countP (fun l => (priorityMap.lookup l).isSome) = 1 then []
       else ["_**priority**_: Must specify exactly one of " ++ formatLabelString priorityMap ++ "."]) ++
      (if sigLabelNames labels = [] then
        ["_**sig owner**_: Must specify at least one label prefixed with `" ++ sigLabelPre ++ "`."]
       else [])) ∧
    (∀ k, labels.filter (fun l => (kindMap.lookup l).isSome) = [k] →
      (checkLabels labels).kindLabel = k) ∧
    (∀ p, labels.filter (fun l => (priorityMap.lookup l).isSome) = [p] →
      (checkLabels labels).priorityLabel = p) ∧
    (checkLabels labels).sigLabels = sigLabelNames labels := by
  have hmk : ∀ k ∈ kindMap.map Prod.fst, k ≠ "" := by decide
  have hmp : ∀ k ∈ priorityMap.map Prod.fst, k ≠ "" := by decide
  refine ⟨?_, ?_, ?_, by simp [checkLabels]⟩
  · have hkc := checkLabels_kind_cond labels
    have hpc := checkLabels_prio_cond labels
    by_cases h1 : labels.countP (fun l => (kindMap.lookup l).isSome) = 1 <;>
      by_cases h2 : labels.countP (fun l => (priorityMap.lookup l).isSome) = 1 <;>
      by_cases h3 : sigLabelNames labels = [] <;>
      simp only [checkLabels] <;>
      simp [hkc, hpc, h1, h2, h3]
  · intro k hf
    rcases uniqueLabelName_filter_cases labels kindMap hmk with
      ⟨hf2, hu⟩ | ⟨k2, hf2, hu, hk2⟩ | ⟨a, b, t, hf2, hu⟩ <;> rw [hf] at hf2
    · simp at hf2
    · obtain rfl : k2 = k := by simpa using hf2.symm
      simp [checkLabels, hu]
    · simp at hf2
  · intro p hf
    rcases uniqueLabelName_filter_cases labels priorityMap hmp with
      ⟨hf2, hu⟩ | ⟨p2, hf2, hu, hp2⟩ | ⟨a, b, t, hf2, hu⟩ <;> rw [hf] at hf2
    · simp at hf2
    · obtain rfl : p2 = p := by simpa using hf2.symm
      simp [checkLabels, hu]
    · simp at hf2

/-- Witness for C2 at a fully valid label set. -/
theorem milestone_c2_witness :
    (checkLabels ["kind/bug", "priority/important-soon", "sig/api"]).kindLabel = "kind/bug" ∧
    (checkLabels ["kind/bug", "priority/important-soon", "sig/api"]).priorityLabel =
      "priority/important-soon" :=
  ⟨(milestone_c2 ["kind/bug", "priority/important-soon", "sig/api"]).2.1 "kind/bug" (by decide),
   (milestone_c2 ["kind/bug", "priority/important-soon", "sig/api"]).2.2.1
     "priority/important-soon" (by decide)⟩

/-- C3: for a non-exempt item with an established grace-period start, the
remaining grace equals the grace period minus the elapsed time since the
start, is strictly decreasing in elapsed time and crosses zero exactly
when the elapsed time equals the grace period; an exempt (blocker) item
always gets "no deadline". -/
theorem milestone_c3 (obj : MungeObject) (botName labelName : String)
    (gracePeriod defaultStart start : Int) :
    (∀ now, gracePeriodStart obj botName labelName defaultStart = some start →
      gracePeriodRemaining obj botName labelName gracePeriod defaultStart false now =
        some (some (gracePeriod - (now - start)))) ∧
    (∀ e1 e2 r1 r2,
      gracePeriodRemaining obj botName labelName gracePeriod defaultStart false (start + e1) =
        some (some r1) →
      gracePeriodRemaining obj botName labelName gracePeriod defaultStart false (start + e2) =
        some (some r2) →
      e1 < e2 → r2 < r1) ∧
    (∀ e r, gracePeriodStart obj botName labelName defaultStart = some start →
      gracePeriodRemaining obj botName labelName gracePeriod defaultStart false (start + e) =
        some (some r) → (r = 0 ↔ e = gracePeriod)) ∧
    (∀ now, gracePeriodRemaining obj botName labelName gracePeriod defaultStart true now =
      some none) := by
  refine ⟨?_, ?_, ?_, ?_⟩
  · intro now hstart
    simp only [gracePeriodRemaining, Bool.false_eq_true, if_false, hstart,
      Option.some.injEq]
    omega
  · intro e1 e2 r1 r2 h1 h2 hlt
    simp only [gracePeriodRemaining, Bool.false_eq_true, if_false] at h1 h2
    cases hgs : gracePeriodStart obj botName labelName defaultStart with
    | none => rw [hgs] at h1; exact absurd h1 (by simp)
    | some s =>
      rw [hgs] at h1 h2
      simp only [Option.some.injEq] at h1 h2
      omega
  · intro e r hstart hrem
    simp only [gracePeriodRemaining, Bool.false_eq_true, if_false, hstart,
      Option.some.injEq] at hrem
    omega
  · intro now
    simp [gracePeriodRemaining]

/-- Witness for C3: an item without the deficiency label gets the default
start, and the remaining grace is the grace period minus elapsed time. -/
theorem milestone_c3_witness :
    gracePeriodRemaining ({} : MungeObject) "bot" "milestone/needs-approval" 10 5 false 7 =
      some (some (10 - (7 - 5))) :=
  (milestone_c3 ({} : MungeObject) "bot" "milestone/needs-approval" 10 5 5).1 7 (by decide)

/-- C10: the caller-supplied default grace-period start is used only when
the deficiency label is absent; when the label is present the start is
exactly the bot's last matching add-label event, so with no such event
(or a failed event lookup) the start is indeterminate and the
computation aborts rather than falling back to the default. -/
theorem milestone_c10 (obj : MungeObject) (botName labelName : String) (defaultStart : Int) :
    (obj.hasLabel labelName = false →
      gracePeriodStart obj botName labelName defaultStart = some defaultStart) ∧
    (obj.hasLabel labelName = true →
      gracePeriodStart obj botName labelName defaultStart =
        labelLastCreatedAt obj botName labelName) ∧
    (obj.events = none → labelLastCreatedAt obj botName labelName = none) ∧
    (∀ events, obj.events = some events →
      events.filter (fun e => e.addLabel && e.label == labelName && e.actor == botName) = [] →
      labelLastCreatedAt obj botName labelName = none) ∧
    (∀ gracePeriod now, obj.hasLabel labelName = true →
      labelLastCreatedAt obj botName labelName = none →
      gracePeriodRemaining obj botName labelName gracePeriod defaultStart false now = none) := by
  refine ⟨?_, ?_, ?_, ?_, ?_⟩
  · intro h
    simp [gracePeriodStart, h]
  · intro h
    simp [gracePeriodStart, h]
  · intro h
    simp [labelLastCreatedAt, h]
  · intro events hev hfil
    simp [labelLastCreatedAt, hev, hfil]
  · intro gracePeriod now hlab hnone
    simp [gracePeriodRemaining, gracePeriodStart, hlab, hnone]

/-- Witness for C10: label present, event fetch succeeds but contains no
matching add-label event, so the grace computation is indeterminate. -/
theorem milestone_c10_witness :
    gracePeriodRemaining
      ({ labels := ["milestone/needs-approval"], events := some [] } : MungeObject)
      "bot" "milestone/needs-approval" 10 0 false 3 = none :=
  (milestone_c10 ({ labels := ["milestone/needs-approval"], events := some [] } : MungeObject)
      "bot" "milestone/needs-approval" 0).2.2.2.2 10 3 (by decide) (by decide)

/-- C7: when the grace-period start cannot be established the resolution
is indeterminate: `issueChangeConfig` answers `none` in both branches
that consult the grace calculator, `issueChange` propagates the `none`,
and the cycle performs no mutation at all. -/
theorem milestone_c7 (m : MilestoneMaintainer) (obj : MungeObject) (now : Int) :
    (issueChangeConfig m obj now = none →
      issueChange m obj now = none ∧ Munge m obj now = []) ∧
    ((checkLabels obj.labels).labelErrors ≠ [] →
      obj.hasLabel blockerLabel = false →
      gracePeriodStart obj m.botName milestoneLabelsIncompleteLabel now = none →
      issueChangeConfig m obj now = none) ∧
    ((checkLabels obj.labels).labelErrors = [] →
      obj.hasLabel statusApprovedLabel = false →
      obj.hasLabel blockerLabel = false →
      gracePeriodStart obj m.botName milestoneNeedsApprovalLabel now = none →
      issueChangeConfig m obj now = none) := by
  refine ⟨?_, ?_, ?_⟩
  · intro hicc
    have hic : issueChange m obj now = none := by
      simp [issueChange, hicc]
    exact ⟨hic, by simp [Munge, hic]⟩
  · intro herr hbl hgs
    simp [issueChangeConfig, herr, hbl, gracePeriodRemaining, hgs]
  · intro herr happ hbl hgs
    simp [issueChangeConfig, herr, happ, hbl, gracePeriodRemaining, hgs]

/-- Witness for C7: the deficiency label is present but the event lookup
fails, so the whole cycle is a no-op. -/
theorem milestone_c7_witness :
    issueChangeConfig ({} : MilestoneMaintainer)
      ({ labels := ["milestone/incomplete-labels"], events := none } : MungeObject) 0 = none ∧
    Munge ({} : MilestoneMaintainer)
      ({ labels := ["milestone/incomplete-labels"], events := none } : MungeObject) 0 = [] := by
  have h := (milestone_c7 ({} : MilestoneMaintainer)
    ({ labels := ["milestone/incomplete-labels"], events := none } : MungeObject) 0).2.1
    (by decide) (by decide) (by decide)
  exact ⟨h, ((milestone_c7 ({} : MilestoneMaintainer)
    ({ labels := ["milestone/incomplete-labels"], events := none } : MungeObject) 0).1 h).2⟩

/-! ## Small lemmas about the issue-change-config builders -/

@[simp] lemma state_enableSection (icc : IssueChangeConfig) (s : String) :
    (icc.enableSection s).state = icc.state := by
  unfold IssueChangeConfig.enableSection
  split <;> rfl

@[simp] lemma state_summarizeLabels (icc : IssueChangeConfig) (k p : String) (sigs : List String) :
    (icc.summarizeLabels k p sigs).state = milestoneCurrent := rfl

@[simp] lemma state_warnUnapproved (icc : IssueChangeConfig) (ra : Option Int) (ms : String) :
    (icc.warnUnapproved ra ms).state = milestoneNeedsApproval := rfl

@[simp] lemma state_removeUnapproved (icc : IssueChangeConfig) :
    icc.removeUnapproved.state = milestoneNeedsRemoval := rfl

@[simp] lemma state_removeNonBlocker (icc : IssueChangeConfig) :
    icc.removeNonBlocker.state = milestoneNeedsRemoval := rfl

@[simp] lemma state_warnMissingInProgress (icc : IssueChangeConfig) :
    icc.warnMissingInProgress.state = milestoneNeedsAttention := rfl

@[simp] lemma state_warnUpdateRequired (icc : IssueChangeConfig) (t : Int) :
    (icc.warnUpdateRequired t).state = milestoneNeedsAttention := rfl

@[simp] lemma state_warnIncompleteLabels (icc : IssueChangeConfig) (ra : Option Int)
    (errs : List String) (ms : String) :
    (icc.warnIncompleteLabels ra errs ms).state = milestoneNeedsLabeling := rfl

@[simp] lemma state_removeIncompleteLabels (icc : IssueChangeConfig) (errs : List String) :
    (icc.removeIncompleteLabels errs).state = milestoneNeedsRemoval := rfl

lemma mem_enableSection (icc : IssueChangeConfig) (s x : String) :
    x ∈ (icc.enableSection s).enabledSections ↔ x ∈ icc.enabledSections ∨ x = s := by
  unfold IssueChangeConfig.enableSection
  split
  · rename_i h
    constructor
    · exact Or.inl
    · rintro (hx | rfl)
      · exact hx
      · simpa using h
  · simp [List.mem_append]

/-! ## Classification invariance under appended non-classifying labels -/

lemma uniqueLabelNameAux_nomem {m : List (String × String)} :
    ∀ (extra : List String), (∀ x ∈ extra, (m.lookup x).isSome = false) →
    ∀ acc, uniqueLabelNameAux m extra acc = (acc, false) := by
  intro extra
  induction extra with
  | nil => intro _ acc; rfl
  | cons e rest ih =>
    intro hx acc
    rw [uniqueLabelNameAux, if_neg (by simp [hx e (List.mem_cons_self e rest)])]
    exact ih (fun x hmem => hx x (List.mem_cons_of_mem _ hmem)) acc

lemma uniqueLabelNameAux_append {m : List (String × String)} {extra : List String}
    (hx : ∀ x ∈ extra, (m.lookup x).isSome = false) :
    ∀ (ls : List String) (acc : String),
      uniqueLabelNameAux m (ls ++ extra) acc = uniqueLabelNameAux m ls acc := by
  intro ls
  induction ls with
  | nil =>
    intro acc
    rw [List.nil_append, uniqueLabelNameAux]
    exact uniqueLabelNameAux_nomem extra hx acc
  | cons l rest ih =>
    intro acc
    rw [List.cons_append, uniqueLabelNameAux, uniqueLabelNameAux]
    cases hl : (m.lookup l).isSome with
    | true =>
      rw [if_pos rfl, if_pos rfl]
      by_cases hacc : acc = ""
      · rw [if_pos hacc, if_pos hacc]; exact ih _
      · rw [if_neg hacc, if_neg hacc]
    | false =>
      rw [if_neg (by simp), if_neg (by simp)]
      exact ih acc

lemma contains_eq_false_of_forall {extra : List String} {y : String}
    (h : ∀ x ∈ extra, x ≠ y) : extra.contains y = false := by
  cases hc : extra.contains y with
  | false => rfl
  | true =>
    have hmem : y ∈ extra := by simpa using hc
    exact absurd rfl (h y hmem)

lemma checkLabels_append_extra (labels extra : List String)
    (hk : ∀ x ∈ extra, (kindMap.lookup x).isSome = false)
    (hp : ∀ x ∈ extra, (priorityMap.lookup x).isSome = false)
    (hs : ∀ x ∈ extra, strStartsWith x sigLabelPre = false) :
    checkLabels (labels ++ extra) = checkLabels labels := by
  have h1 : uniqueLabelName (labels ++ extra) kindMap = uniqueLabelName labels kindMap :=
    uniqueLabelNameAux_append hk labels ""
  have h2 : uniqueLabelName (labels ++ extra) priorityMap = uniqueLabelName labels priorityMap :=
    uniqueLabelNameAux_append hp labels ""
  have h3 : sigLabelNames (labels ++ extra) = sigLabelNames labels := by
    have hnil : List.filter (fun l => strStartsWith l sigLabelPre) extra = [] :=
      List.filter_eq_nil_iff.mpr (fun x hx => by simp [hs x hx])
    unfold sigLabelNames
    rw [List.filter_append, hnil, List.append_nil]
  simp only [checkLabels]
  rw [h1, h2, h3]

lemma contains_append_str (l1 l2 : List String) (a : String) :
    (l1 ++ l2).contains a = (l1.contains a || l2.contains a) := by
  cases h1 : l1.contains a <;> cases h2 : l2.contains a <;> simp_all

lemma hasLabel_append_not_mem (obj : MungeObject) (extra : List String) (y : String)
    (h : ∀ x ∈ extra, x ≠ y) :
    MungeObject.hasLabel { obj with labels := obj.labels ++ extra } y = obj.hasLabel y := by
  show (obj.labels ++ extra).contains y = obj.labels.contains y
  rw [contains_append_str, contains_eq_false_of_forall h, Bool.or_false]

lemma gracePeriodRemaining_append_not_mem (obj : MungeObject) (extra : List String)
    (b y : String) (gp ds : Int) (ib : Bool) (n : Int)
    (h : ∀ x ∈ extra, x ≠ y) :
    gracePeriodRemaining { obj with labels := obj.labels ++ extra } b y gp ds ib n =
      gracePeriodRemaining obj b y gp ds ib n := by
  simp [gracePeriodRemaining, gracePeriodStart, labelLastCreatedAt,
    hasLabel_append_not_mem obj extra y h]

/-- C1: label validity is checked strictly before approval, and approval
strictly before the mode-specific progress/update checks.  A
classification error resolves only to `NeedsLabeling`/`NeedsRemoval`,
and the result is invariant under the approval label, the in-progress
label and the last-modification lookup; a valid-but-unapproved item
resolves only to `NeedsApproval`/`NeedsRemoval`, and the result is
invariant under the in-progress label and the last-modification
lookup. -/
theorem milestone_c1 (m : MilestoneMaintainer) (obj : MungeObject) (now : Int) :
    ((checkLabels obj.labels).labelErrors ≠ [] →
      (∀ icc, issueChangeConfig m obj now = some icc →
        icc.state = milestoneNeedsLabeling ∨ icc.state = milestoneNeedsRemoval) ∧
      (∀ t, issueChangeConfig m { obj with lastModificationTime := t } now =
        issueChangeConfig m obj now) ∧
      (∀ extra, (∀ x ∈ extra, x = statusApprovedLabel ∨ x = statusInProgressLabel) →
        issueChangeConfig m { obj with labels := obj.labels ++ extra } now =
          issueChangeConfig m obj now)) ∧
    ((checkLabels obj.labels).labelErrors = [] →
      obj.hasLabel statusApprovedLabel = false →
      (∀ icc, issueChangeConfig m obj now = some icc →
        icc.state = milestoneNeedsApproval ∨ icc.state = milestoneNeedsRemoval) ∧
      (∀ t, issueChangeConfig m { obj with lastModificationTime := t } now =
        issueChangeConfig m obj now) ∧
      (∀ extra, (∀ x ∈ extra, x = statusInProgressLabel) →
        issueChangeConfig m { obj with labels := obj.labels ++ extra } now =
          issueChangeConfig m obj now)) := by
  constructor
  · intro herr
    refine ⟨?_, ?_, ?_⟩
    · intro icc hicc
      simp only [issueChangeConfig] at hicc
      rw [if_neg herr] at hicc
      split at hicc
      · exact absurd hicc (by simp)
      · injection hicc with h
        subst h
        left; simp
      · split at hicc
        · injection hicc with h
          subst h
          left; simp
        · injection hicc with h
          subst h
          right; simp
    · intro t
      simp only [issueChangeConfig]
      rw [if_neg herr, if_neg herr]
      exact rfl
    · intro extra hx
      have hxk : ∀ x ∈ extra, (kindMap.lookup x).isSome = false := by
        intro x hmem
        rcases hx x hmem with rfl | rfl <;> decide
      have hxp : ∀ x ∈ extra, (priorityMap.lookup x).isSome = false := by
        intro x hmem
        rcases hx x hmem with rfl | rfl <;> decide
      have hxs : ∀ x ∈ extra, strStartsWith x sigLabelPre = false := by
        intro x hmem
        rcases hx x hmem with rfl | rfl <;> decide
      have hcl := checkLabels_append_extra obj.labels extra hxk hxp hxs
      have hbl := hasLabel_append_not_mem obj extra blockerLabel
        (fun x hmem => by rcases hx x hmem with rfl | rfl <;> decide)
      have hgr := gracePeriodRemaining_append_not_mem obj extra m.botName
        milestoneLabelsIncompleteLabel m.labelGracePeriod now (obj.hasLabel blockerLabel) now
        (fun x hmem => by rcases hx x hmem with rfl | rfl <;> decide)
      simp only [issueChangeConfig]
      rw [hcl, hbl, hgr, if_neg herr, if_neg herr]
  · intro herr happ
    refine ⟨?_, ?_, ?_⟩
    · intro icc hicc
      simp only [issueChangeConfig] at hicc
      rw [if_pos herr, if_pos happ] at hicc
      split at hicc
      · injection hicc with h
        subst h
        left; simp
      · split at hicc
        · exact absurd hicc (by simp)
        · injection hicc with h
          subst h
          left; simp
        · split at hicc
          · injection hicc with h
            subst h
            left; simp
          · injection hicc with h
            subst h
            right; simp
    · intro t
      have happ2 : MungeObject.hasLabel { obj with lastModificationTime := t }
          statusApprovedLabel = false := happ
      simp only [issueChangeConfig]
      rw [if_pos herr, if_pos herr, if_pos happ2, if_pos happ]
      exact rfl
    · intro extra hx
      have hxk : ∀ x ∈ extra, (kindMap.lookup x).isSome = false := by
        intro x hmem
        rw [hx x hmem]; decide
      have hxp : ∀ x ∈ extra, (priorityMap.lookup x).isSome = false := by
        intro x hmem
        rw [hx x hmem]; decide
      have hxs : ∀ x ∈ extra, strStartsWith x sigLabelPre = false := by
        intro x hmem
        rw [hx x hmem]; decide
      have hcl := checkLabels_append_extra obj.labels extra hxk hxp hxs
      have hbl := hasLabel_append_not_mem obj extra blockerLabel
        (fun x hmem => by rw [hx x hmem]; decide)
      have hap := hasLabel_append_not_mem obj extra statusApprovedLabel
        (fun x hmem => by rw [hx x hmem]; decide)
      have hgr := gracePeriodRemaining_append_not_mem obj extra m.botName
        milestoneNeedsApprovalLabel m.approvalGracePeriod now false now
        (fun x hmem => by rw [hx x hmem]; decide)
      simp only [issueChangeConfig]
      rw [hcl, hbl, hap, hgr, if_pos herr, if_pos herr, if_pos happ, if_pos happ]

/-- Witness for C1: a concrete item with label errors; its resolution is
untouched by the last-modification collaborator input. -/
theorem milestone_c1_witness :
    issueChangeConfig ({} : MilestoneMaintainer)
      { ({ labels := ["kind/bug"] } : MungeObject) with lastModificationTime := some 5 } 0 =
    issueChangeConfig ({} : MilestoneMaintainer) ({ labels := ["kind/bug"] } : MungeObject) 0 :=
  ((milestone_c1 ({} : MilestoneMaintainer) ({ labels := ["kind/bug"] } : MungeObject) 0).1
    (by decide)).2.1 (some 5)

/-! ## More builder projection lemmas -/

@[simp] lemma templateArguments_enableSection (icc : IssueChangeConfig) (s : String) :
    (icc.enableSection s).templateArguments = icc.templateArguments := by
  unfold IssueChangeConfig.enableSection
  split <;> rfl

@[simp] lemma sigLabels_enableSection (icc : IssueChangeConfig) (s : String) :
    (icc.enableSection s).sigLabels = icc.sigLabels := by
  unfold IssueChangeConfig.enableSection
  split <;> rfl

@[simp] lemma enabledSections_summarizeLabels (icc : IssueChangeConfig) (k p : String)
    (sigs : List String) :
    (icc.summarizeLabels k p sigs).enabledSections =
      (icc.enableSection "summarizeLabels").enabledSections := rfl

@[simp] lemma enabledSections_warnUnapproved (icc : IssueChangeConfig) (ra : Option Int)
    (ms : String) :
    (icc.warnUnapproved ra ms).enabledSections =
      (icc.enableSection "warnUnapproved").enabledSections := rfl

@[simp] lemma enabledSections_removeUnapproved (icc : IssueChangeConfig) :
    icc.removeUnapproved.enabledSections =
      (icc.enableSection "removeUnapproved").enabledSections := rfl

@[simp] lemma enabledSections_removeNonBlocker (icc : IssueChangeConfig) :
    icc.removeNonBlocker.enabledSections =
      (icc.enableSection "removeNonBlocker").enabledSections := rfl

@[simp] lemma enabledSections_warnMissingInProgress (icc : IssueChangeConfig) :
    icc.warnMissingInProgress.enabledSections =
      (icc.enableSection "warnMissingInProgress").enabledSections := rfl

@[simp] lemma enabledSections_warnUpdateRequired (icc : IssueChangeConfig) (t : Int) :
    (icc.warnUpdateRequired t).enabledSections =
      (icc.enableSection "warnUpdateRequired").enabledSections := rfl

@[simp] lemma enabledSections_warnIncompleteLabels (icc : IssueChangeConfig) (ra : Option Int)
    (errs : List String) (ms : String) :
    (icc.warnIncompleteLabels ra errs ms).enabledSections =
      (icc.enableSection "warnIncompleteLabels").enabledSections := rfl

@[simp] lemma enabledSections_removeIncompleteLabels (icc : IssueChangeConfig)
    (errs : List String) :
    (icc.removeIncompleteLabels errs).enabledSections =
      (icc.enableSection "removeIncompleteLabels").enabledSections := rfl

/-- C6: a valid, approved, non-blocker item in freeze mode resolves to
`NeedsRemoval` no matter what the in-progress label or any update facts
say; the progress/update checks are not evaluated on this branch. -/
theorem milestone_c6 (m : MilestoneMaintainer) (obj : MungeObject) (now : Int)
    (herr : (checkLabels obj.labels).labelErrors = [])
    (happ : obj.hasLabel statusApprovedLabel = true)
    (hmode : m.mode = milestoneModeFreeze)
    (hbl : obj.hasLabel blockerLabel = false) :
    (issueChangeConfig m obj now).isSome = true ∧
    (∀ icc, issueChangeConfig m obj now = some icc →
      icc.state = milestoneNeedsRemoval ∧ "removeNonBlocker" ∈ icc.enabledSections) ∧
    (∀ t, issueChangeConfig m { obj with lastModificationTime := t } now =
      issueChangeConfig m obj now) := by
  have hnotapp : ¬(obj.hasLabel statusApprovedLabel = false) := by simp [happ]
  have hnotdev : ¬(m.mode = milestoneModeDev) := by rw [hmode]; decide
  obtain ⟨icc0, hmain⟩ :
      ∃ icc0 : IssueChangeConfig,
        issueChangeConfig m obj now = some icc0.removeNonBlocker :=
    ⟨_, by
      simp only [issueChangeConfig]
      rw [if_pos herr, if_neg hnotapp, if_neg hnotdev, if_pos ⟨hmode, hbl⟩]⟩
  refine ⟨by rw [hmain]; rfl, ?_, ?_⟩
  · intro icc hicc
    rw [hmain] at hicc
    injection hicc with h
    subst h
    exact ⟨by simp, by simp [mem_enableSection]⟩
  · intro t
    have happ2 : MungeObject.hasLabel { obj with lastModificationTime := t }
        statusApprovedLabel = true := happ
    have hnotapp2 : ¬(MungeObject.hasLabel { obj with lastModificationTime := t }
        statusApprovedLabel = false) := by simp [happ2]
    have hbl2 : MungeObject.hasLabel { obj with lastModificationTime := t }
        blockerLabel = false := hbl
    simp only [issueChangeConfig]
    rw [if_pos herr, if_pos herr, if_neg hnotapp2, if_neg hnotapp,
      if_neg hnotdev, if_neg hnotdev, if_pos ⟨hmode, hbl2⟩, if_pos ⟨hmode, hbl⟩]

/-- Witness for C6 at a concrete valid approved non-blocker in freeze. -/
theorem milestone_c6_witness :
    (issueChangeConfig ({ mode := "freeze" } : MilestoneMaintainer)
      ({ labels := ["kind/bug", "priority/important-soon", "sig/api",
        "status/approved-for-milestone"] } : MungeObject) 0).isSome = true :=
  (milestone_c6 ({ mode := "freeze" } : MilestoneMaintainer)
    ({ labels := ["kind/bug", "priority/important-soon", "sig/api",
      "status/approved-for-milestone"] } : MungeObject) 0
    (by decide) (by decide) rfl (by decide)).1

/-- C5: a blocker is exempt from labeling/approval eviction - label
errors resolve to `NeedsLabeling` (never `NeedsRemoval`) and a missing
approval resolves to `NeedsApproval` with an empty removal-deadline
warning - but during slush/freeze a blocker with a positive update
interval is still subject to the update check: the periodic reminder
section is always enabled, and once the elapsed time since last
modification exceeds the interval the state is `NeedsAttention` with the
update-required section enabled. -/
theorem milestone_c5 (m : MilestoneMaintainer) (obj : MungeObject) (now : Int) :
    (obj.hasLabel blockerLabel = true → (checkLabels obj.labels).labelErrors ≠ [] →
      (issueChangeConfig m obj now).isSome = true ∧
      (∀ icc, issueChangeConfig m obj now = some icc →
        icc.state = milestoneNeedsLabeling)) ∧
    (obj.hasLabel blockerLabel = true → (checkLabels obj.labels).labelErrors = [] →
      obj.hasLabel statusApprovedLabel = false →
      (issueChangeConfig m obj now).isSome = true ∧
      (∀ icc, issueChangeConfig m obj now = some icc →
        icc.state = milestoneNeedsApproval ∧
        icc.templateArguments.unapprovedRemovalWarning = "")) ∧
    (obj.hasLabel blockerLabel = true → (checkLabels obj.labels).labelErrors = [] →
      obj.hasLabel statusApprovedLabel = true →
      (m.mode = milestoneModeSlush ∨ m.mode = milestoneModeFreeze) →
      m.updateInterval > 0 →
      ∀ t, findLastModificationTime obj = some t →
        (issueChangeConfig m obj now).isSome = true ∧
        (∀ icc, issueChangeConfig m obj now = some icc →
          "warnUpdateInterval" ∈ icc.enabledSections ∧
          (now - t > m.updateInterval →
            icc.state = milestoneNeedsAttention ∧
            "warnUpdateRequired" ∈ icc.enabledSections))) := by
  refine ⟨?_, ?_, ?_⟩
  · intro hb herr
    have hg : gracePeriodRemaining obj m.botName milestoneLabelsIncompleteLabel
        m.labelGracePeriod now (obj.hasLabel blockerLabel) now = some none := by
      rw [hb]
      rfl
    refine ⟨?_, ?_⟩
    · simp only [issueChangeConfig]
      rw [if_neg herr, hg]
      rfl
    · intro icc hicc
      simp only [issueChangeConfig] at hicc
      rw [if_neg herr] at hicc
      split at hicc
      · rename_i heq
        rw [hg] at heq
        simp at heq
      · injection hicc with h
        subst h
        simp
      · rename_i ra heq
        rw [hg] at heq
        simp at heq
  · intro hb herr happ
    refine ⟨?_, ?_⟩
    · simp only [issueChangeConfig]
      rw [if_pos herr, if_pos happ, if_pos hb]
      rfl
    · intro icc hicc
      simp only [issueChangeConfig] at hicc
      rw [if_pos herr, if_pos happ, if_pos hb] at hicc
      injection hicc with h
      subst h
      refine ⟨by simp, ?_⟩
      simp [IssueChangeConfig.warnUnapproved]
  · intro hb herr happ hmode hui t hlm
    have hnapp : ¬(obj.hasLabel statusApprovedLabel = false) := by simp [happ]
    have hnotdev : ¬(m.mode = milestoneModeDev) := by
      rcases hmode with h | h <;> rw [h] <;> decide
    have hnotfnb : ¬(m.mode = milestoneModeFreeze ∧ obj.hasLabel blockerLabel = false) := by
      rintro ⟨-, hh⟩
      rw [hb] at hh
      exact absurd hh (by decide)
    have hnbf : ¬(obj.hasLabel blockerLabel = false) := by simp [hb]
    refine ⟨?_, ?_⟩
    · simp only [issueChangeConfig]
      rw [if_pos herr, if_neg hnapp, if_neg hnotdev, if_neg hnotfnb, if_neg hnbf,
        if_pos hui, hlm]
      rfl
    · intro icc hicc
      simp only [issueChangeConfig] at hicc
      rw [if_pos herr, if_neg hnapp, if_neg hnotdev, if_neg hnotfnb, if_neg hnbf,
        if_pos hui] at hicc
      split at hicc
      · rename_i heq
        rw [hlm] at heq
        simp at heq
      · rename_i t2 heq
        rw [hlm] at heq
        injection heq with h2
        subst h2
        split at hicc
        · injection hicc with h
          subst h
          exact ⟨by simp [mem_enableSection], fun _ => ⟨by simp, by simp [mem_enableSection]⟩⟩
        · injection hicc with h
          subst h
          rename_i hle
          exact ⟨by simp [mem_enableSection], fun hgt => absurd hgt hle⟩

/-- Witness for C5: a blocker with incomplete labels still resolves (to
`NeedsLabeling`) instead of aborting or being evicted. -/
theorem milestone_c5_witness :
    (issueChangeConfig ({} : MilestoneMaintainer)
      ({ labels := ["priority/critical-urgent"] } : MungeObject) 0).isSome = true :=
  ((milestone_c5 ({} : MilestoneMaintainer)
    ({ labels := ["priority/critical-urgent"] } : MungeObject) 0).1
    (by decide) (by decide)).1

/-! ## Lemmas about the mutation pipeline -/

lemma removeOtherStateLabels_shape (obj : MungeObject) (lab : String) :
    ∀ sls, ∀ a ∈ (removeOtherStateLabels obj lab sls).1,
      ∃ x, a = MungeAction.removeLabel x := by
  intro sls
  induction sls with
  | nil => intro a ha; simp [removeOtherStateLabels] at ha
  | cons sl rest ih =>
    intro a ha
    rw [removeOtherStateLabels] at ha
    split at ha
    · split at ha
      · simp at ha
        exact ⟨sl, ha⟩
      · simp at ha
        rcases ha with rfl | hmem
        · exact ⟨sl, rfl⟩
        · exact ih a hmem
    · exact ih a ha

lemma updateMilestoneStateLabel_shape (obj : MungeObject) (lab : String) :
    ∀ a ∈ (updateMilestoneStateLabel obj lab).1,
      (∃ x, a = MungeAction.addLabel x) ∨ (∃ x, a = MungeAction.removeLabel x) := by
  intro a ha
  rw [updateMilestoneStateLabel] at ha
  split at ha
  · split at ha
    · simp at ha
      exact Or.inl ⟨lab, ha⟩
    · simp at ha
      rcases ha with rfl | hmem
      · exact Or.inl ⟨lab, rfl⟩
      · exact Or.inr (removeOtherStateLabels_shape obj lab milestoneStateLabels a hmem)
  · exact Or.inr (removeOtherStateLabels_shape obj lab milestoneStateLabels a ha)

/-- C4: the existing comment is current iff it parses back to a
notification byte-equal to the new one and either no repeat interval is
configured or the comment's age is strictly below it; and a current
notification suppresses both comment deletion and posting for the whole
cycle. -/
theorem milestone_c4 (m : MilestoneMaintainer) (obj : MungeObject) (now : Int)
    (n : Notification) (comment : Option Comment) (iv : Option Int) :
    (notificationIsCurrent n comment iv now = true ↔
      ((∃ cm, comment = some cm ∧ cm.notif = some n) ∧
       (iv = none ∨ ∃ cm t d, comment = some cm ∧ cm.createdAt = some t ∧ iv = some d ∧
         now - t < d))) ∧
    (∀ change cmt, issueChange m obj now = some change →
      latestNotificationComment obj m.botName = some cmt →
      notificationIsCurrent change.notification cmt change.commentInterval now = true →
      MungeAction.deleteComment ∉ Munge m obj now ∧
      ∀ nn, MungeAction.postComment nn ∉ Munge m obj now) := by
  constructor
  · unfold notificationIsCurrent parseNotification
    cases comment with
    | none => simp
    | some cm =>
      cases hn : cm.notif with
      | none => simp [hn]
      | some o =>
        cases iv with
        | none => simp [hn, beq_iff_eq]
        | some d =>
          cases hc : cm.createdAt with
          | none => simp [hn, hc]
          | some t0 => simp [hn, hc, beq_iff_eq]
  · intro change cmt hchg hcmt hcur
    have hmem : ∀ a ∈ Munge m obj now,
        (∃ x, a = MungeAction.addLabel x) ∨ (∃ x, a = MungeAction.removeLabel x) ∨
        a = MungeAction.clearMilestone := by
      intro a ha
      unfold Munge at ha
      split at ha
      · simp at ha
      · rw [hchg] at ha
        split at ha
        · rename_i heq
          simp at heq
        · rename_i change2 heq
          injection heq with hch
          subst hch
          split at ha
          · rename_i labelActs heq2
            have hsh := updateMilestoneStateLabel_shape obj change.label a
              (by rw [heq2]; exact ha)
            rcases hsh with h | h
            · exact Or.inl h
            · exact Or.inr (Or.inl h)
          · rename_i labelActs heq2
            split at ha
            · rename_i heq3
              rw [hcmt] at heq3
              simp at heq3
            · rename_i cmt2 heq3
              rw [hcmt] at heq3
              injection heq3 with hcm
              subst hcm
              rw [if_pos hcur] at ha
              simp only [List.append_nil, List.mem_append] at ha
              rcases ha with ha | ha
              · have hsh := updateMilestoneStateLabel_shape obj change.label a
                  (by rw [heq2]; exact ha)
                rcases hsh with h | h
                · exact Or.inl h
                · exact Or.inr (Or.inl h)
              · split at ha
                · simp at ha
                  exact Or.inr (Or.inr ha)
                · simp at ha
    constructor
    · intro hd
      rcases hmem _ hd with ⟨x, h⟩ | ⟨x, h⟩ | h <;> exact absurd h (by simp)
    · intro nn hp
      rcases hmem _ hp with ⟨x, h⟩ | ⟨x, h⟩ | h <;> exact absurd h (by simp)

/-- Witness for C4: a parsed-back identical notification younger than the
repeat interval is judged current. -/
theorem milestone_c4_witness :
    notificationIsCurrent { name := "MilestoneNotifier", title := "t", body := "b" }
      (some { author := "bot",
              notif := some { name := "MilestoneNotifier", title := "t", body := "b" },
              createdAt := some 0 }) (some 10) 3 = true :=
  (milestone_c4 {} {} 3 _ _ _).1.mpr
    ⟨⟨_, rfl, rfl⟩, Or.inr ⟨_, 0, 10, rfl, rfl, rfl, by decide⟩⟩

lemma commentStep_mem (change : IssueChange) (obj : MungeObject) (cmt : Option Comment)
    (now : Int) (commentActs : List MungeAction) (b : Bool)
    (h : (if notificationIsCurrent change.notification cmt change.commentInterval now
          then (([], true) : List MungeAction × Bool)
          else
            match cmt with
            | some _ =>
              if obj.deleteCommentFails then ([MungeAction.deleteComment], false)
              else if obj.postCommentFails then
                ([MungeAction.deleteComment, MungeAction.postComment change.notification],
                  false)
              else
                ([MungeAction.deleteComment, MungeAction.postComment change.notification],
                  true)
            | none =>
              if obj.postCommentFails then
                ([MungeAction.postComment change.notification], false)
              else ([MungeAction.postComment change.notification], true)) = (commentActs, b)) :
    ∀ a ∈ commentActs,
      a = MungeAction.deleteComment ∨ a = MungeAction.postComment change.notification := by
  intro a hmem
  split at h
  · injection h with h1 h2
    subst h1
    simp at hmem
  · rcases cmt with _ | c
    · have h2 : (if obj.postCommentFails = true then
          ([MungeAction.postComment change.notification], false)
          else ([MungeAction.postComment change.notification], true)) = (commentActs, b) := h
      split at h2 <;>
        (injection h2 with h1 _; subst h1; simp at hmem; exact Or.inr hmem)
    · have h2 : (if obj.deleteCommentFails = true then ([MungeAction.deleteComment], false)
          else if obj.postCommentFails = true then
            ([MungeAction.deleteComment, MungeAction.postComment change.notification], false)
          else ([MungeAction.deleteComment, MungeAction.postComment change.notification],
            true)) = (commentActs, b) := h
      split at h2
      · injection h2 with h1 _
        subst h1
        simp at hmem
        exact Or.inl hmem
      · split at h2
        all_goals
          injection h2 with h1 _
          subst h1
          simp at hmem
          rcases hmem with rfl | rfl
          · exact Or.inl rfl
          · exact Or.inr rfl

lemma commentStep_ok (change : IssueChange) (obj : MungeObject) (cmt : Option Comment)
    (now : Int) (commentActs : List MungeAction)
    (h : (if notificationIsCurrent change.notification cmt change.commentInterval now
          then (([], true) : List MungeAction × Bool)
          else
            match cmt with
            | some _ =>
              if obj.deleteCommentFails then ([MungeAction.deleteComment], false)
              else if obj.postCommentFails then
                ([MungeAction.deleteComment, MungeAction.postComment change.notification],
                  false)
              else
                ([MungeAction.deleteComment, MungeAction.postComment change.notification],
                  true)
            | none =>
              if obj.postCommentFails then
                ([MungeAction.postComment change.notification], false)
              else ([MungeAction.postComment change.notification], true)) =
        (commentActs, true)) :
    notificationIsCurrent change.notification cmt change.commentInterval now = true ∨
      ((∀ c, cmt = some c → obj.deleteCommentFails = false) ∧
        obj.postCommentFails = false) := by
  split at h
  · rename_i hc
    exact Or.inl hc
  · rename_i hnc
    rcases cmt with _ | c
    · have h2 : (if obj.postCommentFails = true then
          ([MungeAction.postComment change.notification], false)
          else ([MungeAction.postComment change.notification], true)) = (commentActs, true) := h
      split at h2
      · injection h2 with _ hb
        exact absurd hb.symm (by decide)
      · rename_i hnp
        refine Or.inr ⟨fun c hc => absurd hc (by simp), ?_⟩
        revert hnp
        cases obj.postCommentFails <;> simp
    · have h2 : (if obj.deleteCommentFails = true then ([MungeAction.deleteComment], false)
          else if obj.postCommentFails = true then
            ([MungeAction.deleteComment, MungeAction.postComment change.notification], false)
          else ([MungeAction.deleteComment, MungeAction.postComment change.notification],
            true)) = (commentActs, true) := h
      split at h2
      · injection h2 with _ hb
        exact absurd hb.symm (by decide)
      · rename_i hnd
        split at h2
        · injection h2 with _ hb
          exact absurd hb.symm (by decide)
        · rename_i hnp
          refine Or.inr ⟨fun c2 hc2 => ?_, ?_⟩
          · revert hnd
            cases obj.deleteCommentFails <;> simp
          · revert hnp
            cases obj.postCommentFails <;> simp

/-- C8: ordering of the mutation pipeline.  A label add/remove failure
aborts the cycle before any comment mutation and before the milestone
clear; a comment delete/post failure aborts before the milestone clear;
and whenever the milestone clear is emitted, the label synchronization
succeeded, the comment lookup succeeded, the comment phase succeeded (or
was skipped as current), and the clear is the final action of the
cycle. -/
theorem milestone_c8 (m : MilestoneMaintainer) (obj : MungeObject) (now : Int) :
    (∀ change, issueChange m obj now = some change →
      (updateMilestoneStateLabel obj change.label).2 = false →
      ∀ a ∈ Munge m obj now,
        a ≠ MungeAction.deleteComment ∧ (∀ nn, a ≠ MungeAction.postComment nn) ∧
        a ≠ MungeAction.clearMilestone) ∧
    (∀ change cmt, issueChange m obj now = some change →
      (updateMilestoneStateLabel obj change.label).2 = true →
      latestNotificationComment obj m.botName = some cmt →
      notificationIsCurrent change.notification cmt change.commentInterval now = false →
      (((∃ c, cmt = some c) ∧ obj.deleteCommentFails = true) ∨
        obj.postCommentFails = true) →
      MungeAction.clearMilestone ∉ Munge m obj now) ∧
    (MungeAction.clearMilestone ∈ Munge m obj now →
      ∃ change cmt, issueChange m obj now = some change ∧
        change.removeFromMilestone = true ∧
        (updateMilestoneStateLabel obj change.label).2 = true ∧
        latestNotificationComment obj m.botName = some cmt ∧
        (notificationIsCurrent change.notification cmt change.commentInterval now = true ∨
          ((∀ c, cmt = some c → obj.deleteCommentFails = false) ∧
            obj.postCommentFails = false)) ∧
        (Munge m obj now).getLast? = some MungeAction.clearMilestone) := by
  refine ⟨?_, ?_, ?_⟩
  · intro change hchg hfail a ha
    unfold Munge at ha
    split at ha
    · simp at ha
    · rw [hchg] at ha
      split at ha
      · rename_i heq
        simp at heq
      · rename_i change2 heq
        injection heq with hch
        subst hch
        split at ha
        · rename_i labelActs heq2
          rcases updateMilestoneStateLabel_shape obj change.label a
              (by rw [heq2]; exact ha) with ⟨x, rfl⟩ | ⟨x, rfl⟩
          · exact ⟨by simp, fun nn => by simp, by simp⟩
          · exact ⟨by simp, fun nn => by simp, by simp⟩
        · rename_i labelActs heq2
          rw [heq2] at hfail
          simp at hfail
  · intro change cmt hchg hok hcmt hcur hfail hcl
    unfold Munge at hcl
    split at hcl
    · simp at hcl
    · rw [hchg] at hcl
      split at hcl
      · rename_i heq
        simp at heq
      · rename_i change2 heq
        injection heq with hch
        subst hch
        split at hcl
        · rename_i labelActs heq2
          rw [heq2] at hok
          simp at hok
        · rename_i labelActs heq2
          have hclear_not : MungeAction.clearMilestone ∉ labelActs := fun hmem => by
            rcases updateMilestoneStateLabel_shape obj change.label _
                (by rw [heq2]; exact hmem) with ⟨x, h⟩ | ⟨x, h⟩ <;> simp at h
          split at hcl
          · rename_i heq3
            rw [hcmt] at heq3
            simp at heq3
          · rename_i cmt2 heq3
            rw [hcmt] at heq3
            injection heq3 with hcm
            subst hcm
            split at hcl
            · rename_i commentActs heq4
              have hshape := commentStep_mem change obj cmt now commentActs false heq4
              simp only [List.mem_append] at hcl
              rcases hcl with hcl | hcl
              · exact hclear_not hcl
              · rcases hshape _ hcl with h | h <;> simp at h
            · rename_i commentActs heq4
              have hOr := commentStep_ok change obj cmt now commentActs heq4
              rcases hOr with hOr | hOr
              · rw [hOr] at hcur
                exact absurd hcur (by decide)
              · rcases hfail with ⟨⟨c, hc⟩, hdel⟩ | hpost
                · have := hOr.1 c hc
                  rw [this] at hdel
                  exact absurd hdel (by decide)
                · rw [hOr.2] at hpost
                  exact absurd hpost (by decide)
  · intro hcl
    unfold Munge at hcl
    split at hcl
    · simp at hcl
    · rename_i hig
      split at hcl
      · simp at hcl
      · rename_i change heq1
        split at hcl
        · rename_i labelActs heq2
          exact absurd hcl (fun hmem => by
            rcases updateMilestoneStateLabel_shape obj change.label _
                (by rw [heq2]; exact hmem) with ⟨x, h⟩ | ⟨x, h⟩ <;> simp at h)
        · rename_i labelActs heq2
          have hclear_not : MungeAction.clearMilestone ∉ labelActs := fun hmem => by
            rcases updateMilestoneStateLabel_shape obj change.label _
                (by rw [heq2]; exact hmem) with ⟨x, h⟩ | ⟨x, h⟩ <;> simp at h
          split at hcl
          · exact absurd hcl hclear_not
          · rename_i cmt heq3
            split at hcl
            · rename_i commentActs heq4
              have hshape := commentStep_mem change obj cmt now commentActs false heq4
              simp only [List.mem_append] at hcl
              rcases hcl with hcl | hcl
              · exact absurd hcl hclear_not
              · rcases hshape _ hcl with h | h <;> simp at h
            · rename_i commentActs heq4
              have hshape := commentStep_mem change obj cmt now commentActs true heq4
              have hOr := commentStep_ok change obj cmt now commentActs heq4
              simp only [List.mem_append] at hcl
              have hrm : change.removeFromMilestone = true := by
                rcases hcl with (hcl | hcl) | hcl
                · exact absurd hcl hclear_not
                · rcases hshape _ hcl with h | h <;> simp at h
                · by_contra hnrm
                  rw [if_neg hnrm] at hcl
                  simp at hcl
              have hM : Munge m obj now =
                  labelActs ++ commentActs ++ [MungeAction.clearMilestone] := by
                unfold Munge
                rw [if_neg hig, heq1]
                simp only [heq2, heq3, heq4, if_pos hrm]
              refine ⟨change, cmt, heq1, hrm, by rw [heq2], heq3, hOr, ?_⟩
              rw [hM, List.getLast?_append_of_ne_nil _ (by simp)]
              rfl

/-- Witness for C8: a freeze-mode removal cycle ends with the milestone
clear as its final action. -/
theorem milestone_c8_witness :
    (Munge ({ mode := "freeze", activeMilestone := "v1.9" } : MilestoneMaintainer)
      ({ labels := ["kind/bug", "priority/important-soon", "sig/api",
          "status/approved-for-milestone"],
         issueState := some "open", releaseMilestone := some "v1.9",
         events := some [], comments := some [] } : MungeObject) 0).getLast? =
      some MungeAction.clearMilestone := by
  obtain ⟨c, cm, -, -, -, -, -, hlast⟩ :=
    (milestone_c8 ({ mode := "freeze", activeMilestone := "v1.9" } : MilestoneMaintainer)
      ({ labels := ["kind/bug", "priority/important-soon", "sig/api",
          "status/approved-for-milestone"],
         issueState := some "open", releaseMilestone := some "v1.9",
         events := some [], comments := some [] } : MungeObject) 0).2.2 (by decide)
  exact hlast

/-! ## String-suffix lemmas for the summary panel -/

lemma lastChar_append (a b : String) (h : b.data ≠ []) :
    (a ++ b).data.getLast? = b.data.getLast? := by
  rw [String.data_append]
  exact List.getLast?_append_of_ne_nil _ h

lemma endsNLOrEmpty_append {a b : String} (ha : endsNLOrEmpty a) (hb : endsNLOrEmpty b) :
    endsNLOrEmpty (a ++ b) := by
  rcases hb with rfl | hb
  · rw [String.append_empty]
    exact ha
  · have hbne : b.data ≠ [] := by
      intro hn
      rw [hn] at hb
      simp at hb
    right
    rw [lastChar_append a b hbne]
    exact hb

lemma endsNLOrEmpty_ite (c : Prop) [Decidable c] (s : String)
    (h : s.data.getLast? = some '\n') : endsNLOrEmpty (if c then s else "") := by
  split
  · exact Or.inr h
  · exact Or.inl rfl

lemma lastChar_append_lit (x lit : String) (h : lit.data.getLast? = some '\n')
    (hne : lit.data ≠ []) : (x ++ lit).data.getLast? = some '\n' := by
  rw [lastChar_append _ _ hne]
  exact h

lemma lastChar_renderLabelErrors (a : String) (l : List String)
    (h : a.data.getLast? = some '\n') :
    (a ++ renderLabelErrors l).data.getLast? = some '\n' := by
  induction l generalizing a with
  | nil =>
    rw [renderLabelErrors, String.append_empty]
    exact h
  | cons e rest ih =>
    rw [renderLabelErrors, ← String.append_assoc]
    apply ih
    rw [lastChar_append _ _ (by rw [String.data_append]; simp)]
    rw [lastChar_append _ _ (by decide)]
    rfl

lemma strEndsWith_append (p t : String) : strEndsWith (p ++ t) t = true := by
  unfold strEndsWith
  rw [String.data_append]
  exact List.isSuffixOf_iff_suffix.mpr ⟨p.data, rfl⟩

lemma strEndsWith_false_of_lastChar {s t : String} {c1 c2 : Char}
    (h1 : s.data.getLast? = some c1) (h2 : t.data.getLast? = some c2) (hne : c1 ≠ c2) :
    strEndsWith s t = false := by
  cases he : strEndsWith s t with
  | false => rfl
  | true =>
    exfalso
    obtain ⟨u, hu⟩ := List.isSuffixOf_iff_suffix.mp he
    have htne : t.data ≠ [] := by
      intro hn
      rw [hn] at h2
      simp at h2
    rw [← hu, List.getLast?_append_of_ne_nil _ htne, h2] at h1
    injection h1 with h1
    exact hne h1.symm

lemma lastChar_summaryPanelOf (icc : IssueChangeConfig) :
    (summaryPanelOf icc).data.getLast? = some '>' := by
  unfold summaryPanelOf summaryPanel
  rw [lastChar_append _ _ (by decide)]
  rfl

lemma summaryPanel_open_flag (o : Bool) (sl : List String) (p pd k kd : String) :
    strStartsWith (summaryPanel o sl p pd k kd) "<details open>" = o := by
  cases o <;> rfl

lemma hasSummaryPanel_of_active (icc : IssueChangeConfig)
    (h : sectionActive icc "summarizeLabels" = true) :
    hasSummaryPanel icc (renderMessage icc) = true := by
  unfold hasSummaryPanel
  simp only [renderMessage]
  rw [if_pos h]
  exact strEndsWith_append _ _

lemma renderMessage_inactive_endsNL (icc : IssueChangeConfig)
    (h : sectionActive icc "summarizeLabels" = false) :
    endsNLOrEmpty (renderMessage icc) := by
  simp only [renderMessage]
  rw [if_neg (show ¬(sectionActive icc "summarizeLabels" = true) by simp [h]),
    String.append_empty]
  refine endsNLOrEmpty_append (endsNLOrEmpty_append (endsNLOrEmpty_append
    (endsNLOrEmpty_append (endsNLOrEmpty_append (endsNLOrEmpty_append
      (endsNLOrEmpty_append (endsNLOrEmpty_append
        (endsNLOrEmpty_ite _ _ (lastChar_append_lit _ _ (by decide) (by decide)))
        (endsNLOrEmpty_ite _ _ (lastChar_append_lit _ _ (by decide) (by decide))))
      (endsNLOrEmpty_ite _ _ (lastChar_append_lit _ _ (by decide) (by decide))))
    (endsNLOrEmpty_ite _ _ (lastChar_append_lit _ _ (by decide) (by decide))))
    (endsNLOrEmpty_ite _ _ (lastChar_append_lit _ _ (by decide) (by decide))))
    (endsNLOrEmpty_ite _ _ (lastChar_append_lit _ _ (by decide) (by decide))))
    (endsNLOrEmpty_ite _ _ (lastChar_append_lit _ _ (by decide) (by decide))))
    (endsNLOrEmpty_ite _ _ (lastChar_renderLabelErrors _ _
      (lastChar_append_lit _ _ (by decide) (by decide)))))
    (endsNLOrEmpty_ite _ _ (lastChar_append_lit _ _ (by decide) (by decide)))

lemma hasSummaryPanel_of_inactive (icc : IssueChangeConfig)
    (h : sectionActive icc "summarizeLabels" = false) :
    hasSummaryPanel icc (renderMessage icc) = false := by
  rcases renderMessage_inactive_endsNL icc h with hb | hb
  · unfold hasSummaryPanel
    rw [hb]
    cases he : strEndsWith "" (summaryPanelOf icc) with
    | false => rfl
    | true =>
      exfalso
      obtain ⟨u, hu⟩ := List.isSuffixOf_iff_suffix.mp he
      have hlast := lastChar_summaryPanelOf icc
      have hne : (summaryPanelOf icc).data ≠ [] := by
        intro hn
        rw [hn] at hlast
        simp at hlast
      rw [show ("" : String).data = [] from rfl] at hu
      exact hne (List.append_eq_nil.mp hu).2
  · exact strEndsWith_false_of_lastChar hb (lastChar_summaryPanelOf icc) (by decide)

lemma no_panel_iff (icc : IssueChangeConfig) (P : Prop)
    (h : sectionActive icc "summarizeLabels" = false) (hP : ¬P) :
    (hasSummaryPanel icc (renderMessage icc) = true ↔ P) :=
  iff_of_false (by rw [hasSummaryPanel_of_inactive icc h]; simp) hP

/-- C9 (amended): the rendered body ends with the issue-label-summary
panel iff the classification is error-free and the resolved state is not
`NeedsRemoval` (a removal state suppresses the panel, and invalid labels
never enable it); the panel, when rendered, is open exactly for the
`Current` state. -/
theorem milestone_c9_amended (m : MilestoneMaintainer) (obj : MungeObject) (now : Int) :
    ∀ icc, issueChangeConfig m obj now = some icc →
      (hasSummaryPanel icc (renderMessage icc) = true ↔
        ((checkLabels obj.labels).labelErrors = [] ∧ icc.state ≠ milestoneNeedsRemoval)) ∧
      strStartsWith (summaryPanelOf icc) "<details open>" = (icc.state == milestoneCurrent) := by
  intro icc hicc
  refine ⟨?_, summaryPanel_open_flag _ _ _ _ _ _⟩
  simp only [issueChangeConfig] at hicc
  by_cases herr : (checkLabels obj.labels).labelErrors = []
  · rw [if_pos herr] at hicc
    by_cases happ : obj.hasLabel statusApprovedLabel = false
    · rw [if_pos happ] at hicc
      by_cases hb : obj.hasLabel blockerLabel = true
      · rw [if_pos hb] at hicc
        injection hicc with h
        subst h
        exact ⟨fun _ => ⟨herr, by simp⟩, fun _ => hasSummaryPanel_of_active _ rfl⟩
      · rw [if_neg hb] at hicc
        split at hicc
        · simp at hicc
        · injection hicc with h
          subst h
          exact ⟨fun _ => ⟨herr, by simp⟩, fun _ => hasSummaryPanel_of_active _ rfl⟩
        · split at hicc
          · injection hicc with h
            subst h
            exact ⟨fun _ => ⟨herr, by simp⟩, fun _ => hasSummaryPanel_of_active _ rfl⟩
          · injection hicc with h
            subst h
            exact no_panel_iff _ _ rfl (by simp)
    · rw [if_neg happ] at hicc
      by_cases hdev : m.mode = milestoneModeDev
      · rw [if_pos hdev] at hicc
        injection hicc with h
        subst h
        exact ⟨fun _ => ⟨herr, by simp⟩, fun _ => hasSummaryPanel_of_active _ rfl⟩
      · rw [if_neg hdev] at hicc
        by_cases hfnb : m.mode = milestoneModeFreeze ∧ obj.hasLabel blockerLabel = false
        · rw [if_pos hfnb] at hicc
          injection hicc with h
          subst h
          exact no_panel_iff _ _ rfl (by simp)
        · rw [if_neg hfnb] at hicc
          by_cases hip : obj.hasLabel statusInProgressLabel = false
          · rw [if_pos hip] at hicc
            by_cases hbf : obj.hasLabel blockerLabel = false
            · rw [if_pos hbf] at hicc
              injection hicc with h
              subst h
              exact ⟨fun _ => ⟨herr, by simp⟩, fun _ => hasSummaryPanel_of_active _ rfl⟩
            · rw [if_neg hbf] at hicc
              by_cases hui : m.updateInterval > 0
              · rw [if_pos hui] at hicc
                split at hicc
                · simp at hicc
                · split at hicc
                  all_goals
                    injection hicc with h
                    subst h
                    exact ⟨fun _ => ⟨herr, by simp⟩, fun _ => hasSummaryPanel_of_active _ rfl⟩
              · rw [if_neg hui] at hicc
                injection hicc with h
                subst h
                exact ⟨fun _ => ⟨herr, by simp⟩, fun _ => hasSummaryPanel_of_active _ rfl⟩
          · rw [if_neg hip] at hicc
            by_cases hbf : obj.hasLabel blockerLabel = false
            · rw [if_pos hbf] at hicc
              injection hicc with h
              subst h
              exact ⟨fun _ => ⟨herr, by simp⟩, fun _ => hasSummaryPanel_of_active _ rfl⟩
            · rw [if_neg hbf] at hicc
              by_cases hui : m.updateInterval > 0
              · rw [if_pos hui] at hicc
                split at hicc
                · simp at hicc
                · split at hicc
                  all_goals
                    injection hicc with h
                    subst h
                    exact ⟨fun _ => ⟨herr, by simp⟩, fun _ => hasSummaryPanel_of_active _ rfl⟩
              · rw [if_neg hui] at hicc
                injection hicc with h
                subst h
                exact ⟨fun _ => ⟨herr, by simp⟩, fun _ => hasSummaryPanel_of_active _ rfl⟩
  · rw [if_neg herr] at hicc
    split at hicc
    · simp at hicc
    · injection hicc with h
      subst h
      exact no_panel_iff _ _ rfl (by simp [herr])
    · split at hicc
      all_goals
        injection hicc with h
        subst h
        exact no_panel_iff _ _ rfl (by simp [herr])

/-- Counterexample for C9 as stated: a valid, approved, non-blocker item
in freeze mode resolves (state `NeedsRemoval`), yet its rendered body
does not carry the issue-label-summary panel at all - the panel is
neither open nor collapsed. -/
theorem milestone_c9_counterexample :
    issueChangeConfig mC9 objC9 0 = some iccC9 ∧
    iccC9.state = milestoneNeedsRemoval ∧
    hasSummaryPanel iccC9 (renderMessage iccC9) = false := by
  refine ⟨rfl, by decide, by decide⟩

/-- Witness for the amended C9: a current dev-mode item renders the
panel. -/
theorem milestone_c9_witness :
    hasSummaryPanel iccC9w (renderMessage iccC9w) = true :=
  ((milestone_c9_amended mC9w objC9w 0) iccC9w rfl).1.mpr ⟨by decide, by decide⟩
